import Mathlib

/-!
# CookieMuncher — shallow embedding and verification

A shallow embedding of the session-management and cookie-synchronization
logic of the CookieMuncher browser-extension popup (`src/CookieMuncher.tsx`),
together with theorems settling the specification's claims about it.

The component state (`sessions`, `activeSessionId`, `newSessionName`,
`error`) is modelled as an explicit record.  Asynchronous host calls
(tab creation, cookie get/set/remove, storage) are modelled by passing
their results as parameters and by returning the emitted host calls or
the transformed cookie jar explicitly.
-/

namespace CookieMuncher

/-- A cookie snapshot, with exactly the fields the component reads
(`name`, `value`, `domain`, `path`, `secure`, `httpOnly`, `sameSite`,
optional `expirationDate`). -/
structure Cookie where
  name : String
  value : String
  domain : String
  path : String
  secure : Bool
  httpOnly : Bool
  sameSite : String
  expirationDate : Option Int
deriving Repr, DecidableEq

/-- A session record: `id`, user-chosen `name`, optional associated
browser-tab id, and the recorded cookie list. -/
structure Session where
  id : String
  name : String
  tabId : Option Int
  cookies : List Cookie
deriving Repr, DecidableEq

/-- The component's state: the session list, the active session id
(`null` modelled as `none`), the in-progress new-session name, and the
user-visible error message. -/
structure AppState where
  sessions : List Session
  activeSessionId : Option String
  newSessionName : String
  error : Option String
deriving Repr, DecidableEq

/-- `const MAX_SESSION_NAME_LENGTH = 20`. -/
def MAX_SESSION_NAME_LENGTH : Nat := 20

/-- ASCII whitespace recognized by JavaScript's `String.prototype.trim`. -/
def isJsWhitespace (c : Char) : Bool :=
  c = ' ' || c = '\t' || c = '\n' || c = '\r' || c = '\x0b' || c = '\x0c'

/-- JavaScript's `name.trim()`: strip leading and trailing whitespace. -/
def jsTrim (s : String) : String :=
  String.mk (((s.data.dropWhile isJsWhitespace).reverse.dropWhile isJsWhitespace).reverse)

/-- `createSession(name)`.  The fresh uuid and the result of the host
call `chrome.tabs.create({})` (`some tabId` on success, `none` on
failure) are passed as parameters.  Mirrors the source order: the three
validation early-returns, the append + activate, the tab call with its
rollback catch-branch, then the unconditional
`setNewSessionName(''); setError(null)`. -/
def createSession (st : AppState) (nm : String) (freshId : String)
    (tabResult : Option Int) : AppState :=
  if jsTrim nm = "" then
    { st with error := some "Session name cannot be empty." }
  else if st.sessions.any (fun session => session.name = jsTrim nm) then
    { st with error := some "A session with this name already exists." }
  else if nm.length > MAX_SESSION_NAME_LENGTH then
    { st with error := some "Session name cannot be longer than 20 characters." }
  else
    let newSession : Session := { id := freshId, name := jsTrim nm, tabId := none, cookies := [] }
    let st1 : AppState :=
      { st with sessions := st.sessions ++ [newSession], activeSessionId := some newSession.id }
    let st2 : AppState :=
      match tabResult with
      | some tid =>
          { st1 with sessions := st1.sessions.map (fun session =>
              if session.id = newSession.id then { session with tabId := some tid } else session) }
      | none =>
          { st1 with error := some "Failed to create new tab.",
                     sessions := st1.sessions.filter (fun s => s.id ≠ newSession.id),
                     activeSessionId := none }
    { st2 with newSessionName := "", error := none }

/-- A host API call emitted by an operation. -/
inductive HostCall where
  | removeTab (tid : Int)
  | removeCookie (url : String) (nm : String)
deriving Repr, DecidableEq

/-- The URL built for a recorded cookie when deleting a session:
`` `${cookie.secure ? 'https://' : 'http://'}${cookie.domain}${cookie.path}` ``. -/
def cookieUrl (c : Cookie) : String :=
  (if c.secure then "https://" else "http://") ++ c.domain ++ c.path

/-- `deleteSession(id)`.  Returns the new state and the host calls
issued (tab close, then one cookie removal per recorded cookie).  The
new active id on deleting the active session is
`sessions.length > 1 ? sessions[0].id : null`, computed on the
**pre-removal** list, exactly as in the source. -/
def deleteSession (st : AppState) (id : String) : AppState × List HostCall :=
  match st.sessions.find? (fun session => session.id = id) with
  | none => (st, [])
  | some sessionToDelete =>
      let tabCalls : List HostCall :=
        match sessionToDelete.tabId with
        | some tid => [HostCall.removeTab tid]
        | none => []
      let cookieCalls : List HostCall :=
        sessionToDelete.cookies.map (fun c => HostCall.removeCookie (cookieUrl c) c.name)
      let newSessions := st.sessions.filter (fun session => session.id ≠ id)
      let newActive : Option String :=
        if st.activeSessionId = some id then
          (match st.sessions with
           | s0 :: _ :: _ => some s0.id
           | _ => none)
        else st.activeSessionId
      ({ st with sessions := newSessions, activeSessionId := newActive },
       tabCalls ++ cookieCalls)

/-- `switchSession(id)`: sets the active session id unconditionally. -/
def switchSession (st : AppState) (id : String) : AppState :=
  { st with activeSessionId := some id }

/-- `session.cookies.findIndex(c => c.name === ck.name)` followed by
in-place update at that index, or push when absent — the add-or-update
step of `handleCookieChanged`. -/
def updateCookieList (cs : List Cookie) (ck : Cookie) : List Cookie :=
  match cs.findIdx? (fun c => c.name = ck.name) with
  | some i => cs.set i ck
  | none => cs ++ [ck]

/-- `handleCookieChanged(changeInfo)`.  Maps over **all** sessions; the
guard inside the map is `if (activeSessionId)` — a truthiness test on
the active id, not a comparison with `session.id` — exactly as in the
source. -/
def handleCookieChanged (st : AppState) (removed : Bool) (ck : Cookie) : AppState :=
  if removed then
    { st with sessions := st.sessions.map (fun session =>
        match st.activeSessionId with
        | some _ =>
            { session with cookies := session.cookies.filter (fun c => c.name ≠ ck.name) }
        | none => session) }
  else
    { st with sessions := st.sessions.map (fun session =>
        match st.activeSessionId with
        | some _ => { session with cookies := updateCookieList session.cookies ck }
        | none => session) }

/-- `chrome.cookies.remove({url, name})` on the jar of the single URL in
scope: drops every cookie of that name. -/
def jarRemove (jar : List Cookie) (nm : String) : List Cookie :=
  jar.filter (fun c => c.name ≠ nm)

/-- `chrome.cookies.set(details)` on the jar of the single URL in scope:
replaces the first cookie of that name, or appends. -/
def jarSet (jar : List Cookie) (ck : Cookie) : List Cookie :=
  match jar.findIdx? (fun c => c.name = ck.name) with
  | some i => jar.set i ck
  | none => jar ++ [ck]

/-- `handleCookieManagement(tabId, sessionId)`.  The live jar for the
tab's URL is passed in and the transformed jar returned; `urlResolves`
models whether `chrome.tabs.get` yields a tab with a URL.  Mirrors the
source: abort if the session or URL is missing; `getAll` (returns the
jar); overwrite the session record with the fetched cookies; remove
every live cookie whose name is not in the **pre-fetch** name set; set
every pre-fetch recorded cookie with its original attributes. -/
def handleCookieManagement (st : AppState) (sessionId : String) (urlResolves : Bool)
    (jar : List Cookie) : AppState × List Cookie :=
  match st.sessions.find? (fun s => s.id = sessionId) with
  | none => (st, jar)
  | some session =>
      if urlResolves then
        let currentCookies := jar
        let st1 : AppState :=
          { st with sessions := st.sessions.map (fun s =>
              if s.id = sessionId then { s with cookies := currentCookies } else s) }
        let sessionCookieNames := session.cookies.map (fun c => c.name)
        let jar1 := currentCookies.foldl (fun j c =>
          if sessionCookieNames.contains c.name then j else jarRemove j c.name) jar
        let jar2 := session.cookies.foldl (fun j c => jarSet j c) jar1
        (st1, jar2)
      else (st, jar)

/-- JSON-like values, modelling what `chrome.storage.local` stores. -/
inductive JVal where
  | jnull
  | jbool (b : Bool)
  | jnum (n : Int)
  | jstr (s : String)
  | jarr (xs : List JVal)
  | jobj (fields : List (String × JVal))
deriving Inhabited

/-- Field lookup on a stored object. -/
def jGet (fields : List (String × JVal)) (k : String) : Option JVal :=
  match fields.find? (fun p => p.1 = k) with
  | some p => some p.2
  | none => none

/-- `typeof v === 'string'`. -/
def isStr : Option JVal → Bool
  | some (JVal.jstr _) => true
  | _ => false

/-- `Array.isArray(v)`. -/
def isArr : Option JVal → Bool
  | some (JVal.jarr _) => true
  | _ => false

/-- The load-time shape filter:
`s && typeof s.id === 'string' && typeof s.name === 'string' && Array.isArray(s.cookies)`. -/
def validSessionShape : JVal → Bool
  | JVal.jobj fs => isStr (jGet fs "id") && isStr (jGet fs "name") && isArr (jGet fs "cookies")
  | _ => false

/-- How a cookie is serialized to storage. -/
def encodeCookie (c : Cookie) : JVal :=
  JVal.jobj ([("name", JVal.jstr c.name), ("value", JVal.jstr c.value),
    ("domain", JVal.jstr c.domain), ("path", JVal.jstr c.path),
    ("secure", JVal.jbool c.secure), ("httpOnly", JVal.jbool c.httpOnly),
    ("sameSite", JVal.jstr c.sameSite)] ++
    (match c.expirationDate with
     | some e => [("expirationDate", JVal.jnum e)]
     | none => []))

/-- How a session is serialized to storage. -/
def encodeSession (s : Session) : JVal :=
  JVal.jobj ([("id", JVal.jstr s.id), ("name", JVal.jstr s.name)] ++
    (match s.tabId with
     | some t => [("tabId", JVal.jnum t)]
     | none => []) ++
    [("cookies", JVal.jarr (s.cookies.map encodeCookie))])

/-- `chrome.storage.local.set({ sessions })`: the whole list stored as
one array value. -/
def saveSessions (ss : List Session) : JVal :=
  JVal.jarr (ss.map encodeSession)

/-- The `id` read off a stored entry (`validatedSessions[0].id`). -/
def storedId : JVal → Option String
  | JVal.jobj fs =>
      match jGet fs "id" with
      | some (JVal.jstr s) => some s
      | _ => none
  | _ => none

/-- Startup `loadSessions`: if the stored value is an array, keep the
entries passing the shape filter and activate the first retained
entry's id; otherwise the state keeps its initial empty list and null
active id.  Returns (retained raw entries, active id). -/
def loadSessions : JVal → List JVal × Option String
  | JVal.jarr entries =>
      let validatedSessions := entries.filter validSessionShape
      (validatedSessions, validatedSessions.head?.bind storedId)
  | _ => ([], none)

/-! ### Concrete fixtures used in counterexample and witness theorems -/

/-- A sample cookie named `x` on `a.com`. -/
def ckX : Cookie :=
  { name := "x", value := "1", domain := "a.com", path := "/", secure := false,
    httpOnly := false, sameSite := "lax", expirationDate := none }

/-- A second cookie with the same name as `ckX` but a different value. -/
def ckX2 : Cookie := { ckX with value := "2" }

/-- Session `A` with id `a` and an associated tab. -/
def sessA : Session := { id := "a", name := "A", tabId := some 1, cookies := [] }

/-- Session `B` with id `b` and no tab. -/
def sessB : Session := { id := "b", name := "B", tabId := none, cookies := [] }

/-- Two sessions, `A` active. -/
def stAB : AppState :=
  { sessions := [sessA, sessB], activeSessionId := some "a", newSessionName := "", error := none }

/-- The initial empty state. -/
def stEmpty : AppState :=
  { sessions := [], activeSessionId := none, newSessionName := "", error := none }

/-- The empty state with the name `Alice` typed into the input. -/
def stNew : AppState :=
  { sessions := [], activeSessionId := none, newSessionName := "Alice", error := none }

/-- A session whose recorded list holds two cookies of the same name. -/
def sessDup : Session := { id := "d", name := "D", tabId := none, cookies := [ckX, ckX2] }

/-- A one-session state whose active session records duplicate-named cookies. -/
def stDup : AppState :=
  { sessions := [sessDup], activeSessionId := some "d", newSessionName := "", error := none }

/-- A session recording the single cookie `ckX`. -/
def sessC : Session := { id := "c", name := "C", tabId := none, cookies := [ckX] }

/-- A one-session state with `sessC` active. -/
def stC : AppState :=
  { sessions := [sessC], activeSessionId := some "c", newSessionName := "", error := none }

/-! ### Claim theorems -/

/-- C1: counter-evidence.  In a state with sessions `A` (active) and `B`,
a set notification for cookie `x` appends the cookie to **both**
sessions' recorded lists: the handler's guard tests only that
`activeSessionId` is non-null, never that the mapped session is the
active one, so the non-active session `B`'s list changes as well —
contradicting the claim that only the active session's list changes. -/
theorem handleCookieChanged_mutates_nonactive_session :
    stAB.activeSessionId = some sessA.id ∧ sessB.id ≠ sessA.id ∧
    (handleCookieChanged stAB false ckX).sessions.map (fun s => (s.id, s.cookies)) =
      [("a", [ckX]), ("b", [ckX])] := by
  refine ⟨rfl, by decide, rfl⟩

/-- C2: counter-evidence.  Deleting the active session `a` from the list
`[a, b]` leaves the list `[b]` but re-activates the **deleted** id `a`
(the code reads `sessions[0].id` from the pre-removal list), not the
first remaining session `b` as the claim states. -/
theorem deleteSession_active_head_activates_deleted :
    stAB.activeSessionId = some "a" ∧
    (deleteSession stAB "a").1.sessions.map Session.id = ["b"] ∧
    (deleteSession stAB "a").1.activeSessionId = some "a" := by
  refine ⟨rfl, by decide, by decide⟩

/-- C5: counter-evidence.  After deleting the active head session `a`
from `[a, b]`, the active session id is still `a` while no session in
the list carries id `a`: the claimed invariant — the active id, if set,
references an existing session — is violated by `delete`. -/
theorem deleteSession_breaks_active_existence_invariant :
    (deleteSession stAB "a").1.activeSessionId = some "a" ∧
    ((deleteSession stAB "a").1.sessions.all (fun s => s.id != "a")) = true := by
  refine ⟨by decide, by decide⟩

/-- C3: counter-evidence.  A valid `create("Alice")` whose tab creation
fails rolls the session list back to its pre-call value and clears the
active selection, as claimed — but the error message is `none` at
completion: the unconditional `setError(null)` after the `try/catch`
erases the `'Failed to create new tab.'` message set in the catch
branch, contradicting the claim that a user-visible error is set. -/
theorem createSession_tab_failure_error_cleared :
    (createSession stNew "Alice" "id1" none).sessions = stNew.sessions ∧
    (createSession stNew "Alice" "id1" none).activeSessionId = none ∧
    (createSession stNew "Alice" "id1" none).error = none := by
  refine ⟨by decide, by decide, by decide⟩

/-- Mapping the tab-id assignment over sessions none of which carries the
fresh id leaves them unchanged. -/
theorem map_assignTabId_of_fresh (l : List Session) (fid : String) (tid : Int)
    (h : ∀ s ∈ l, s.id ≠ fid) :
    l.map (fun session =>
      if session.id = fid then { session with tabId := some tid } else session) = l := by
  induction l with
  | nil => rfl
  | cons a t ih =>
      have ha : a.id ≠ fid := h a (List.mem_cons_self a t)
      have ht : ∀ s ∈ t, s.id ≠ fid := fun s hs => h s (List.mem_cons_of_mem a hs)
      simp [ha, ih ht]

/-- C9: confirmed.  `delete(id)` with an id carried by no session finds
nothing, so the state (session list, active selection, error) is
returned unchanged and the emitted host-call list is empty: no tab
close and no cookie removal is issued. -/
theorem deleteSession_unknown_id_noop (st : AppState) (id : String)
    (h : ∀ s ∈ st.sessions, s.id ≠ id) :
    deleteSession st id = (st, []) := by
  unfold deleteSession
  have hfind : st.sessions.find? (fun session => session.id = id) = none := by
    rw [List.find?_eq_none]
    intro s hs
    simpa using h s hs
  rw [hfind]

/-- C9 witness: deleting the unknown id `zz` from the two-session state
is the identity and issues no host call. -/
theorem deleteSession_unknown_id_noop_witness :
    deleteSession stAB "zz" = (stAB, []) :=
  deleteSession_unknown_id_noop stAB "zz" (by decide)

/-- C7: confirmed.  `create` with an invalid name — empty or
whitespace-only after trimming, a duplicate (post-trim, case-sensitive)
of an existing session's name, or longer than the 20-character bound —
returns at one of the three validation early-returns: it sets an error
message and leaves every other component of the state (the session
list, hence every session's recorded cookies, and the active selection)
unchanged. -/
theorem createSession_invalid_sets_error_only (st : AppState) (nm fid : String)
    (tabResult : Option Int)
    (h : jsTrim nm = "" ∨
         st.sessions.any (fun session => session.name = jsTrim nm) = true ∨
         nm.length > MAX_SESSION_NAME_LENGTH) :
    ∃ msg, createSession st nm fid tabResult = { st with error := some msg } := by
  unfold createSession
  by_cases h1 : jsTrim nm = ""
  · rw [if_pos h1]
    exact ⟨_, rfl⟩
  · rw [if_neg h1]
    by_cases h2 : st.sessions.any (fun session => session.name = jsTrim nm) = true
    · rw [if_pos h2]
      exact ⟨_, rfl⟩
    · rw [if_neg h2]
      by_cases h3 : nm.length > MAX_SESSION_NAME_LENGTH
      · rw [if_pos h3]
        exact ⟨_, rfl⟩
      · rcases h with h | h | h
        · exact absurd h h1
        · exact absurd h h2
        · exact absurd h h3

/-- C7 witness: creating `"A"` in the state whose sessions are named
`A` and `B` hits the duplicate-name validation and only sets the
error. -/
theorem createSession_invalid_sets_error_only_witness :
    ∃ msg, createSession stAB "A" "w1" none = { stAB with error := some msg } :=
  createSession_invalid_sets_error_only stAB "A" "w1" none (Or.inr (Or.inl (by decide)))

/-- C6: confirmed.  For a name whose trim is non-empty, whose length is
within the 20-character bound, and whose trim collides with no existing
session's name, `create` (with the host tab call succeeding and a fresh
uuid) appends exactly one session — carrying the trimmed name, an empty
cookie list, and the created tab's id — marks it active, and ends with
the input and error cleared; in particular the list length increases by
exactly one. -/
theorem createSession_valid_appends_and_activates (st : AppState) (nm fid : String) (tid : Int)
    (h1 : jsTrim nm ≠ "")
    (h2 : st.sessions.any (fun session => session.name = jsTrim nm) = false)
    (h3 : nm.length ≤ MAX_SESSION_NAME_LENGTH)
    (h4 : ∀ s ∈ st.sessions, s.id ≠ fid) :
    createSession st nm fid (some tid) =
      { sessions := st.sessions ++
          [{ id := fid, name := jsTrim nm, tabId := some tid, cookies := [] }],
        activeSessionId := some fid, newSessionName := "", error := none } ∧
    (createSession st nm fid (some tid)).sessions.length = st.sessions.length + 1 := by
  have hmain : createSession st nm fid (some tid) =
      { sessions := st.sessions ++
          [{ id := fid, name := jsTrim nm, tabId := some tid, cookies := [] }],
        activeSessionId := some fid, newSessionName := "", error := none } := by
    unfold createSession
    rw [if_neg h1, if_neg (by simp [h2]), if_neg (by omega)]
    simp only [List.map_append, List.map_cons, List.map_nil]
    rw [map_assignTabId_of_fresh st.sessions fid tid h4]
    simp
  refine ⟨hmain, ?_⟩
  rw [hmain]
  simp

/-- C6 witness: creating `"Alice"` in the empty state with tab id 7
appends the one new active session. -/
theorem createSession_valid_appends_and_activates_witness :
    createSession stEmpty "Alice" "id1" (some 7) =
      { sessions := [{ id := "id1", name := jsTrim "Alice", tabId := some 7, cookies := [] }],
        activeSessionId := some "id1", newSessionName := "", error := none } ∧
    (createSession stEmpty "Alice" "id1" (some 7)).sessions.length =
      stEmpty.sessions.length + 1 :=
  createSession_valid_appends_and_activates stEmpty "Alice" "id1" 7
    (by decide) (by decide) (by decide) (by decide)

/-- Unfolding `updateCookieList` one cookie at a time. -/
theorem updateCookieList_cons (c : Cookie) (cs : List Cookie) (ck : Cookie) :
    updateCookieList (c :: cs) ck =
      if c.name = ck.name then ck :: cs else c :: updateCookieList cs ck := by
  unfold updateCookieList
  rw [List.findIdx?_cons]
  by_cases h : c.name = ck.name
  · simp [h]
  · simp only [h, decide_False, Bool.false_eq_true, if_false, if_neg h]
    rw [List.findIdx?_start_succ]
    cases hf : cs.findIdx? (fun c => c.name = ck.name) with
    | none => simp
    | some k => simp

/-- When the head of the list is the first cookie matching the
notification's name, `updateCookieList` replaces exactly it. -/
theorem updateCookieList_first_match (pre : List Cookie) (d : Cookie) (post : List Cookie)
    (ck : Cookie) (hd : d.name = ck.name) (hpre : ∀ e ∈ pre, e.name ≠ ck.name) :
    updateCookieList (pre ++ d :: post) ck = pre ++ ck :: post := by
  induction pre with
  | nil => simp [updateCookieList_cons, hd]
  | cons a t ih =>
      have ha : a.name ≠ ck.name := hpre a (List.mem_cons_self a t)
      have ht : ∀ e ∈ t, e.name ≠ ck.name := fun e he => hpre e (List.mem_cons_of_mem a he)
      simp [updateCookieList_cons, ha, ih ht]

/-- When no cookie in the list matches the notification's name,
`updateCookieList` appends the notification cookie. -/
theorem updateCookieList_no_match (cs : List Cookie) (ck : Cookie)
    (h : ∀ e ∈ cs, e.name ≠ ck.name) :
    updateCookieList cs ck = cs ++ [ck] := by
  induction cs with
  | nil => rfl
  | cons a t ih =>
      have ha : a.name ≠ ck.name := h a (List.mem_cons_self a t)
      have ht : ∀ e ∈ t, e.name ≠ ck.name := fun e he => h e (List.mem_cons_of_mem a he)
      simp [updateCookieList_cons, ha, ih ht]

/-- C10: confirmed.  With any session active, the cookie-change handler
matches recorded cookies by name alone.  Session by session (the result
list is related pointwise to the input list): a removal notification
for `ck` leaves exactly the recorded cookies whose name differs from
`ck.name` — a recorded cookie named like `ck` is deleted however its
domain or path differ from `ck`'s — and a set notification replaces the
first recorded cookie named like `ck` (whatever its domain, path or
other attributes) with the notification cookie. -/
theorem handleCookieChanged_matches_by_name_only (st : AppState) (a : String) (ck : Cookie)
    (hactive : st.activeSessionId = some a) :
    (List.Forall₂ (fun o n => ∀ c : Cookie, c ∈ n.cookies ↔ (c ∈ o.cookies ∧ c.name ≠ ck.name))
        st.sessions (handleCookieChanged st true ck).sessions)
    ∧ (List.Forall₂ (fun o n => ∀ pre (d : Cookie) post, o.cookies = pre ++ d :: post →
          d.name = ck.name → (∀ e ∈ pre, e.name ≠ ck.name) → n.cookies = pre ++ ck :: post)
        st.sessions (handleCookieChanged st false ck).sessions) := by
  constructor
  · have hred : (handleCookieChanged st true ck).sessions =
        st.sessions.map (fun session =>
          { session with cookies := session.cookies.filter (fun c => c.name ≠ ck.name) }) := by
      simp [handleCookieChanged, hactive]
    rw [hred, List.forall₂_map_right_iff, List.forall₂_same]
    intro x _ c
    simp [List.mem_filter, and_comm]
  · have hred : (handleCookieChanged st false ck).sessions =
        st.sessions.map (fun session =>
          { session with cookies := updateCookieList session.cookies ck }) := by
      simp [handleCookieChanged, hactive]
    rw [hred, List.forall₂_map_right_iff, List.forall₂_same]
    intro x _ pre d post hsplit hd hpre
    simp only
    rw [hsplit, updateCookieList_first_match pre d post ck hd hpre]

/-- C10 witness: the name-only matching behavior at the concrete
two-session state with a set/removal notification for `ckX`. -/
theorem handleCookieChanged_matches_by_name_only_witness :
    (List.Forall₂ (fun o n => ∀ c : Cookie, c ∈ n.cookies ↔ (c ∈ o.cookies ∧ c.name ≠ ckX.name))
        stAB.sessions (handleCookieChanged stAB true ckX).sessions)
    ∧ (List.Forall₂ (fun o n => ∀ pre (d : Cookie) post, o.cookies = pre ++ d :: post →
          d.name = ckX.name → (∀ e ∈ pre, e.name ≠ ckX.name) → n.cookies = pre ++ ckX :: post)
        stAB.sessions (handleCookieChanged stAB false ckX).sessions) :=
  handleCookieChanged_matches_by_name_only stAB "a" ckX rfl

/-- The removal loop of a reconciliation pass only ever drops cookies
from the jar. -/
theorem foldl_removeStep_sub (names : List String) :
    ∀ (L j : List Cookie) (c : Cookie),
      c ∈ L.foldl (fun j c => if names.contains c.name then j else jarRemove j c.name) j →
      c ∈ j := by
  intro L
  induction L with
  | nil => intro j c h; exact h
  | cons a t ih =>
      intro j c h
      rw [List.foldl_cons] at h
      have hstep := ih _ c h
      by_cases ha : names.contains a.name = true
      · rwa [if_pos ha] at hstep
      · rw [if_neg ha] at hstep
        exact List.mem_of_mem_filter hstep

/-- The removal loop keeps every jar cookie whose name is in the
session's pre-fetch name set. -/
theorem foldl_removeStep_keep (names : List String) :
    ∀ (L j : List Cookie) (c : Cookie), c ∈ j → names.contains c.name = true →
      c ∈ L.foldl (fun j c => if names.contains c.name then j else jarRemove j c.name) j := by
  intro L
  induction L with
  | nil => intro j c hj _; exact hj
  | cons a t ih =>
      intro j c hj hc
      rw [List.foldl_cons]
      apply ih _ c ?_ hc
      by_cases ha : names.contains a.name = true
      · rwa [if_pos ha]
      · rw [if_neg ha]
        refine List.mem_filter.mpr ⟨hj, ?_⟩
        have hne : c.name ≠ a.name := fun he => ha (he ▸ hc)
        simpa using hne

/-- The removal loop deletes every jar cookie whose name occurs in the
iterated list but not in the session's pre-fetch name set. -/
theorem foldl_removeStep_gone (names : List String) :
    ∀ (L j : List Cookie) (c : Cookie), names.contains c.name = false →
      (∃ d ∈ L, d.name = c.name) →
      c ∉ L.foldl (fun j c => if names.contains c.name then j else jarRemove j c.name) j := by
  intro L
  induction L with
  | nil =>
      intro j c _ hd
      rcases hd with ⟨d, hd, _⟩
      exact absurd hd (List.not_mem_nil d)
  | cons a t ih =>
      intro j c hc hd habs
      rw [List.foldl_cons] at habs
      rcases hd with ⟨d, hd, hdn⟩
      rcases List.mem_cons.mp hd with rfl | hdt
      · have ha : names.contains d.name = false := by rwa [hdn]
        have ha' : ¬ (names.contains d.name = true) := by
          rw [ha]
          exact Bool.false_ne_true
        rw [if_neg ha'] at habs
        have hmem := foldl_removeStep_sub names t _ c habs
        have := (List.mem_filter.mp hmem).2
        simp only [decide_eq_true_eq] at this
        exact this hdn.symm
      · exact ih _ c hc ⟨d, hdt, hdn⟩ habs

/-- Characterization of the jar after the removal loop of a
reconciliation pass: exactly the live cookies whose name is in the
session's pre-fetch name set survive. -/
theorem foldl_removeStep_mem (names : List String) (jar : List Cookie) (c : Cookie) :
    c ∈ jar.foldl (fun j c => if names.contains c.name then j else jarRemove j c.name) jar ↔
      (c ∈ jar ∧ names.contains c.name = true) := by
  constructor
  · intro h
    have hc := foldl_removeStep_sub names jar jar c h
    refine ⟨hc, ?_⟩
    by_contra hfalse
    have hn : names.contains c.name = false := by
      simpa using hfalse
    exact foldl_removeStep_gone names jar jar c hn ⟨c, hc, rfl⟩ h
  · intro h
    exact foldl_removeStep_keep names jar jar c h.1 h.2

/-- `jarSet` and the recorded-list update are the same replace-or-append
operation. -/
theorem jarSet_eq_updateCookieList (j : List Cookie) (ck : Cookie) :
    jarSet j ck = updateCookieList j ck := rfl

/-- The cookie written by `updateCookieList` is in the result. -/
theorem mem_updateCookieList_self (j : List Cookie) (d : Cookie) :
    d ∈ updateCookieList j d := by
  induction j with
  | nil => simp [updateCookieList]
  | cons a t ih =>
      rw [updateCookieList_cons]
      by_cases h : a.name = d.name
      · simp [h]
      · rw [if_neg h]
        exact List.mem_cons_of_mem a ih

/-- `updateCookieList` keeps every cookie whose name differs from the
written cookie's name. -/
theorem mem_updateCookieList_of_ne (j : List Cookie) (c d : Cookie)
    (hc : c ∈ j) (hne : c.name ≠ d.name) : c ∈ updateCookieList j d := by
  induction j with
  | nil => exact absurd hc (List.not_mem_nil c)
  | cons a t ih =>
      rw [updateCookieList_cons]
      by_cases h : a.name = d.name
      · rw [if_pos h]
        rcases List.mem_cons.mp hc with rfl | hct
        · exact absurd h hne
        · exact List.mem_cons_of_mem d hct
      · rw [if_neg h]
        rcases List.mem_cons.mp hc with rfl | hct
        · exact List.mem_cons_self c _
        · exact List.mem_cons_of_mem a (ih hct)

/-- Every cookie in the result of `updateCookieList` was in the input or
is the written cookie. -/
theorem mem_of_mem_updateCookieList (j : List Cookie) (c d : Cookie)
    (h : c ∈ updateCookieList j d) : c ∈ j ∨ c = d := by
  induction j with
  | nil =>
      simp [updateCookieList] at h
      exact Or.inr h
  | cons a t ih =>
      rw [updateCookieList_cons] at h
      by_cases ha : a.name = d.name
      · rw [if_pos ha] at h
        rcases List.mem_cons.mp h with rfl | hct
        · exact Or.inr rfl
        · exact Or.inl (List.mem_cons_of_mem a hct)
      · rw [if_neg ha] at h
        rcases List.mem_cons.mp h with rfl | hct
        · exact Or.inl (List.mem_cons_self c t)
        · rcases ih hct with h1 | h1
          · exact Or.inl (List.mem_cons_of_mem a h1)
          · exact Or.inr h1

/-- Every cookie in the jar after the set loop was in the jar before it
or is one of the session's recorded cookies. -/
theorem foldl_jarSet_sub :
    ∀ (L j : List Cookie) (c : Cookie),
      c ∈ L.foldl (fun j c => jarSet j c) j → c ∈ j ∨ c ∈ L := by
  intro L
  induction L with
  | nil => intro j c h; exact Or.inl h
  | cons a t ih =>
      intro j c h
      rw [List.foldl_cons] at h
      rcases ih _ c h with h1 | h1
      · rw [jarSet_eq_updateCookieList] at h1
        rcases mem_of_mem_updateCookieList j c a h1 with h2 | h2
        · exact Or.inl h2
        · exact Or.inr (h2 ▸ List.mem_cons_self a t)
      · exact Or.inr (List.mem_cons_of_mem a h1)

/-- The set loop keeps every jar cookie whose name collides with none of
the written cookies. -/
theorem foldl_jarSet_preserve :
    ∀ (L j : List Cookie) (c : Cookie), c ∈ j → (∀ d ∈ L, d.name ≠ c.name) →
      c ∈ L.foldl (fun j c => jarSet j c) j := by
  intro L
  induction L with
  | nil => intro j c hj _; exact hj
  | cons a t ih =>
      intro j c hj hnames
      rw [List.foldl_cons]
      refine ih _ c ?_ (fun d hd => hnames d (List.mem_cons_of_mem a hd))
      rw [jarSet_eq_updateCookieList]
      exact mem_updateCookieList_of_ne j c a hj
        (fun he => hnames a (List.mem_cons_self a t) he.symm)

/-- When the recorded cookie names are pairwise distinct, the set loop
puts every recorded cookie into the jar. -/
theorem foldl_jarSet_mem_of_nodup :
    ∀ (L j : List Cookie), (L.map (fun c => c.name)).Nodup →
      ∀ c ∈ L, c ∈ L.foldl (fun j c => jarSet j c) j := by
  intro L
  induction L with
  | nil => intro j _ c hc; exact absurd hc (List.not_mem_nil c)
  | cons a t ih =>
      intro j hnd c hc
      rw [List.map_cons, List.nodup_cons] at hnd
      rw [List.foldl_cons]
      rcases List.mem_cons.mp hc with rfl | hct
      · refine foldl_jarSet_preserve t _ c ?_ (fun d hd he => ?_)
        · rw [jarSet_eq_updateCookieList]
          exact mem_updateCookieList_self j c
        · exact hnd.1 (he ▸ List.mem_map_of_mem (fun c => c.name) hd)
      · exact ih _ hnd.2 c hct

/-- Overwriting the found session's cookie list commutes with `find?`. -/
theorem find?_map_overwrite (l : List Session) (sid : String) (sess : Session)
    (jar : List Cookie) (h : l.find? (fun s => s.id = sid) = some sess) :
    (l.map (fun s => if s.id = sid then { s with cookies := jar } else s)).find?
        (fun s => s.id = sid) = some { sess with cookies := jar } := by
  induction l with
  | nil => simp at h
  | cons a t ih =>
      by_cases ha : a.id = sid
      · rw [List.find?_cons_of_pos t (by simpa using ha)] at h
        have haeq : a = sess := by simpa using h
        rw [List.map_cons, if_pos ha]
        rw [List.find?_cons_of_pos _ (by simpa using ha)]
        rw [haeq]
      · rw [List.find?_cons_of_neg t (by simpa using ha)] at h
        rw [List.map_cons, if_neg ha]
        rw [List.find?_cons_of_neg _ (by simpa using ha)]
        exact ih h

/-- C4: counterexample.  When the active session's recorded list holds
two cookies of the same name (here `ckX` then `ckX2`, both named `x`
but with different values), a reconciliation pass sets them in order
and the second overwrites the first in the jar: the final jar is
`[ckX2]`, so the pre-pass recorded cookie `ckX` is **not** present in
the live jar with identical attributes afterward, refuting the claim as
stated. -/
theorem handleCookieManagement_dup_name_loses_cookie :
    sessDup.cookies = [ckX, ckX2] ∧
    (handleCookieManagement stDup "d" true []).2 = [ckX2] ∧
    ckX ∉ (handleCookieManagement stDup "d" true []).2 := by
  refine ⟨rfl, by decide, by decide⟩

/-- C4 (amended): confirmed.  In a reconciliation pass whose tab URL
resolves and whose host calls succeed, with `session` the session found
for `sessionId`: the session record is overwritten with the fetched
live cookies; provided the session's pre-pass recorded cookie names are
pairwise distinct, every cookie of the pre-pass recorded list is
present in the final live jar with identical attributes; and,
unconditionally, every live cookie whose name is not in the pre-pass
name set is absent from the final jar (every final jar cookie's name is
in that set). -/
theorem handleCookieManagement_reconciles (st : AppState) (sid : String) (session : Session)
    (jar : List Cookie)
    (hfind : st.sessions.find? (fun s => s.id = sid) = some session) :
    ((handleCookieManagement st sid true jar).1.sessions.find? (fun s => s.id = sid) =
        some { session with cookies := jar })
    ∧ ((session.cookies.map (fun c => c.name)).Nodup →
        ∀ c ∈ session.cookies, c ∈ (handleCookieManagement st sid true jar).2)
    ∧ (∀ c ∈ (handleCookieManagement st sid true jar).2,
        (session.cookies.map (fun c => c.name)).contains c.name = true) := by
  have hred1 : (handleCookieManagement st sid true jar).1 =
      { st with sessions :=
          st.sessions.map (fun s => if s.id = sid then { s with cookies := jar } else s) } := by
    simp [handleCookieManagement, hfind]
  have hred2 : (handleCookieManagement st sid true jar).2 =
      session.cookies.foldl (fun j c => jarSet j c)
        (jar.foldl (fun j c =>
          if (session.cookies.map (fun c => c.name)).contains c.name then j
          else jarRemove j c.name) jar) := by
    simp [handleCookieManagement, hfind]
  rw [hred1, hred2]
  refine ⟨find?_map_overwrite st.sessions sid session jar hfind, ?_, ?_⟩
  · intro hnodup c hc
    exact foldl_jarSet_mem_of_nodup session.cookies _ hnodup c hc
  · intro c hc
    rcases foldl_jarSet_sub session.cookies _ c hc with h | h
    · exact ((foldl_removeStep_mem _ jar c).mp h).2
    · exact List.elem_iff.mpr (List.mem_map_of_mem (fun c => c.name) h)

/-- C4 witness: a pass for session `c` (recorded cookies `[ckX]`) on a
jar holding `ckX2`: the record is overwritten with `[ckX2]`, `ckX` is
re-imposed on the jar, and every final jar cookie is named `x`. -/
theorem handleCookieManagement_reconciles_witness :
    ((handleCookieManagement stC "c" true [ckX2]).1.sessions.find? (fun s => s.id = "c") =
        some { sessC with cookies := [ckX2] })
    ∧ ((sessC.cookies.map (fun c => c.name)).Nodup →
        ∀ c ∈ sessC.cookies, c ∈ (handleCookieManagement stC "c" true [ckX2]).2)
    ∧ (∀ c ∈ (handleCookieManagement stC "c" true [ckX2]).2,
        (sessC.cookies.map (fun c => c.name)).contains c.name = true) :=
  handleCookieManagement_reconciles stC "c" sessC [ckX2] (by decide)

/-- Every session entry written by `saveSessions` passes the load-time
shape filter: its `id` and `name` are strings and its `cookies` field is
an array. -/
theorem validShape_encodeSession (s : Session) :
    validSessionShape (encodeSession s) = true := by
  cases h : s.tabId <;> simp [encodeSession, validSessionShape, jGet, isStr, isArr, h]

/-- Reading the `id` field back off a saved session entry. -/
theorem storedId_encodeSession (s : Session) : storedId (encodeSession s) = some s.id := by
  cases h : s.tabId <;> simp [encodeSession, storedId, jGet, h]

/-- The shape filter keeps every saved session entry. -/
theorem filter_validShape_map_encode (ss : List Session) :
    (ss.map encodeSession).filter validSessionShape = ss.map encodeSession := by
  rw [List.filter_eq_self]
  intro a ha
  rcases List.mem_map.mp ha with ⟨s, _, rfl⟩
  exact validShape_encodeSession s

/-- C8: confirmed.  Round-trip through persistence: loading what
`saveSessions` wrote yields exactly the saved entries (none of a saved
well-typed list fails shape validation, so the removal clause removes
nothing) with the first entry's id active; and when the stored array
additionally holds malformed entries — ones failing the id-string /
name-string / cookies-array shape check — exactly those are dropped and
the first retained entry's id becomes active. -/
theorem loadSessions_saveSessions_roundTrip :
    (∀ ss : List Session, loadSessions (saveSessions ss) =
        (ss.map encodeSession, ss.head?.map Session.id))
    ∧ (∀ (ss₁ ss₂ : List Session) (junk : List JVal),
        (∀ j ∈ junk, validSessionShape j = false) →
        loadSessions (JVal.jarr (ss₁.map encodeSession ++ (junk ++ ss₂.map encodeSession))) =
          ((ss₁ ++ ss₂).map encodeSession, ((ss₁ ++ ss₂).head?.map Session.id))) := by
  constructor
  · intro ss
    simp only [saveSessions, loadSessions]
    rw [filter_validShape_map_encode]
    cases ss with
    | nil => rfl
    | cons s t => simp [storedId_encodeSession]
  · intro ss₁ ss₂ junk hjunk
    simp only [loadSessions]
    rw [List.filter_append, List.filter_append, filter_validShape_map_encode,
        filter_validShape_map_encode]
    have hj : junk.filter validSessionShape = [] := by
      rw [List.filter_eq_nil_iff]
      intro j hjm
      simp [hjunk j hjm]
    rw [hj, List.nil_append, ← List.map_append]
    generalize ss₁ ++ ss₂ = l
    cases l with
    | nil => rfl
    | cons s t => simp [storedId_encodeSession]

/-- C8 witness: saving sessions `A` and `B` around a malformed `null`
entry and loading drops exactly the `null` entry and activates `A`'s
id. -/
theorem loadSessions_saveSessions_roundTrip_witness :
    loadSessions (JVal.jarr
        ([sessA].map encodeSession ++ ([JVal.jnull] ++ [sessB].map encodeSession))) =
      (([sessA] ++ [sessB]).map encodeSession, (([sessA] ++ [sessB]).head?.map Session.id)) :=
  loadSessions_saveSessions_roundTrip.2 [sessA] [sessB] [JVal.jnull]
    (fun j hj => by rw [List.mem_singleton.mp hj]; rfl)

end CookieMuncher
